import Mathlib

/-!
Verification of the downdetector repository (config resolution pipeline in
`src/config.rs`, monitoring worker in `src/worker.rs`, error type in
`src/error.rs`).

Machine integers: the Rust code uses `u64` for `timeout_secs`,
`check_interval_secs` and `discord_id`; these are modelled as `Nat` (no
arithmetic in the code can overflow: the values are only compared and
stored).  Rust's `str::parse::<u64>` is modelled faithfully, including its
overflow failure at `2^64`.

External crates: `url::Url::parse` and the HTTP client are not part of the
repository.  `Url.parse` below is a model of the `url` crate's parser
restricted to the URL shapes this program handles (scheme `://` authority
and path, query/fragment split, userinfo and port stripping, ASCII
lowercasing of scheme and host, and the WHATWG path processing of special
schemes: `\` cuts like `/`, `..` segments pop the previous segment, `.`
segments are dropped); HTTP traffic is modelled by passing the transport
outcome as an explicit argument.
-/

namespace Downdetector

/-! ## Character-list utilities (used by the models below) -/

/-- Split a character list at the first character satisfying `p`:
returns the longest prefix on which `p` is false, and the rest
(beginning with the hit, when there is one). -/
def takeUntilCh (p : Char → Bool) : List Char → List Char × List Char
  | [] => ([], [])
  | c :: cs =>
    if p c then ([], c :: cs)
    else
      let r := takeUntilCh p cs
      (c :: r.1, r.2)

/-- `hasPfxCh p s` holds when `p` is an initial segment of `s`
(model of `str::starts_with`). -/
def hasPfxCh : List Char → List Char → Bool
  | [], _ => true
  | _ :: _, [] => false
  | p :: ps, c :: cs => p = c && hasPfxCh ps cs

/-- Remove an initial segment (model of `str::strip_prefix`). -/
def stripPfxCh : List Char → List Char → Option (List Char)
  | [], s => some s
  | _ :: _, [] => none
  | p :: ps, c :: cs => if p = c then stripPfxCh ps cs else none

/-- Split on a separator character (model of `str::split(sep)`:
always returns at least one piece; adjacent separators and separators at
the ends produce empty pieces). -/
def splitCh (sep : Char) : List Char → List (List Char)
  | [] => [[]]
  | c :: cs =>
    if c = sep then [] :: splitCh sep cs
    else
      match splitCh sep cs with
      | [] => [[c]]
      | s :: ss => (c :: s) :: ss

/-- The segment after the last occurrence of `sep` (the whole list when
`sep` does not occur).  Used to drop the userinfo part of an authority. -/
def afterLastCh (sep : Char) (l : List Char) : List Char :=
  l.foldl (fun acc c => if c = sep then [] else acc ++ [c]) []

/-- ASCII lowercasing of a character list. -/
def lowerCh (l : List Char) : List Char := l.map Char.toLower

/-- Model of Rust `str::trim` (drop whitespace from both ends).
Lean's `Char.isWhitespace` covers ASCII whitespace only, while Rust trims
Unicode whitespace; the difference is immaterial here, the program's
blank values are ASCII. -/
def trimCh (l : List Char) : List Char :=
  ((l.dropWhile Char.isWhitespace).reverse.dropWhile Char.isWhitespace).reverse

/-! ## Model of `str::parse::<u64>` -/

/-- Value of a list of decimal digit characters. -/
def digitsVal (l : List Char) : Nat :=
  l.foldl (fun a c => 10 * a + (c.toNat - 48)) 0

/-- Model of Rust `str::parse::<u64>`: an optional leading `+`, then one
or more ASCII digits, failing on overflow past `2^64 - 1`. -/
def parseU64Ch (cs : List Char) : Option Nat :=
  let ds := if cs.headD ' ' = '+' then cs.tail else cs
  if ds.isEmpty then none
  else if ds.all Char.isDigit then
    let n := digitsVal ds
    if n < 2 ^ 64 then some n else none
  else none

/-- `str::parse::<u64>` on a `String`. -/
def parseU64 (s : String) : Option Nat := parseU64Ch s.data

/-! ## Model of `url::Url::parse` -/

/-- Parse error of the URL model (mirrors the `url` crate's failure modes
relevant here). -/
inductive UrlParseError where
  /-- No scheme, or an invalid scheme: a relative URL with no base. -/
  | relativeUrlWithoutBase
  /-- Empty host in an authority-based URL. -/
  | emptyHost
  /-- Invalid port characters after the host. -/
  | invalidPort
  /-- URL shapes outside this model (no `//` after the scheme). -/
  | unsupportedShape
deriving DecidableEq, Repr

/-- Parsed URL: the components `Config::validate_webhook_url` inspects
(`scheme()`, `host_str()`, `path()`). -/
structure Url where
  scheme : String
  host : String
  path : String
deriving DecidableEq, Repr

/-- A valid scheme character (after the first): ASCII alphanumeric or
`+`, `-`, `.`. -/
def isSchemeChar (c : Char) : Bool :=
  c.isAlphanum || c = '+' || c = '-' || c = '.'

/-- WHATWG "shorten a url's path": pop the last segment, if any. -/
def shortenPath (segs : List (List Char)) : List (List Char) := segs.dropLast

/-- WHATWG path state for special schemes: segments are cut at `/` or
`\`; a `..` segment pops the previous segment, a `.` segment is dropped,
each leaving a trailing empty segment when it is the last segment.
(Percent-encoded dot segments such as `%2e` are outside the model.) -/
def pathSegsAux : List (List Char) → List Char → List Char → List (List Char)
  | acc, buf, [] =>
    if buf = ['.', '.'] then shortenPath acc ++ [[]]
    else if buf = ['.'] then acc ++ [[]]
    else acc ++ [buf]
  | acc, buf, c :: cs =>
    if c = '/' || c = '\\' then
      if buf = ['.', '.'] then pathSegsAux (shortenPath acc) [] cs
      else if buf = ['.'] then pathSegsAux acc [] cs
      else pathSegsAux (acc ++ [buf]) [] cs
    else pathSegsAux acc (buf ++ [c]) cs

/-- Join path segments with `/` separators (path serialization). -/
def joinSegs : List (List Char) → List Char
  | [] => []
  | [s] => s
  | s :: ss => s ++ '/' :: joinSegs ss

/-- Model of `url::Url::parse` for scheme-`://`-authority-path URLs:
splits the scheme at the first `:`, requires two slashes (`/` or `\`,
which the WHATWG parser treats alike for special schemes), reads the
authority up to the first `/`, `\`, `?` or `#`, strips userinfo (up to
the last `@`) and a digits-only port, lowercases scheme and host, takes
the path up to the first `?` or `#` and applies the WHATWG path
processing (`pathSegsAux`); an empty path becomes `/`. -/
def Url.parse (s : String) : Except UrlParseError Url :=
  let (schemeCs, rest) := takeUntilCh (· = ':') s.data
  match rest with
  | [] => .error .relativeUrlWithoutBase
  | _ :: afterColon =>
    if schemeCs.isEmpty then .error .relativeUrlWithoutBase
    else if ¬ ((schemeCs.headD 'a').isAlpha ∧ schemeCs.all isSchemeChar) then
      .error .relativeUrlWithoutBase
    else
      match afterColon with
      | c1 :: c2 :: rest2 =>
        if (c1 = '/' || c1 = '\\') && (c2 = '/' || c2 = '\\') then
          let (auth, rest3) :=
            takeUntilCh (fun c => c = '/' || c = '\\' || c = '?' || c = '#') rest2
          let hostPort := if auth.contains '@' then afterLastCh '@' auth else auth
          let (hostCs, portCs) := takeUntilCh (· = ':') hostPort
          if hostCs.isEmpty then .error .emptyHost
          else
            match portCs with
            | [] =>
              let (pathCs, _) := takeUntilCh (fun c => c = '?' || c = '#') rest3
              .ok { scheme := ⟨lowerCh schemeCs⟩, host := ⟨lowerCh hostCs⟩,
                    path := if pathCs.isEmpty then "/"
                      else ⟨'/' :: joinSegs (pathSegsAux [] [] (pathCs.drop 1))⟩ }
            | _ :: ds =>
              if ds.all Char.isDigit then
                let (pathCs, _) := takeUntilCh (fun c => c = '?' || c = '#') rest3
                .ok { scheme := ⟨lowerCh schemeCs⟩, host := ⟨lowerCh hostCs⟩,
                      path := if pathCs.isEmpty then "/"
                        else ⟨'/' :: joinSegs (pathSegsAux [] [] (pathCs.drop 1))⟩ }
              else .error .invalidPort
        else .error .unsupportedShape
      | _ => .error .unsupportedShape

/-! ## Error type (`src/error.rs`) -/

/-- The application error type (`src/error.rs`).  Only the variants
reachable from the modelled code paths are included: `Config` for
validation failures, `HttpRequest` for reqwest failures. -/
inductive Error where
  /-- Configuration validation failed (`Error::Config(String)`). -/
  | Config (msg : String)
  /-- HTTP request failed (`Error::HttpRequest`). -/
  | HttpRequest (msg : String)
deriving DecidableEq, Repr

/-! ## Configuration data model (`src/config.rs`) -/

/-- `RawConfigOptions`: the `[config]` section as deserialized, with the
serde defaults already applied (`timeout_secs = 30`,
`check_interval_secs = 300` when missing). -/
structure RawConfigOptions where
  timeout_secs : Nat
  check_interval_secs : Nat
  webhook_url : Option String
  discord_id : Option Nat
deriving DecidableEq, Repr

/-- `SiteList`: the `[sites]` section. -/
structure SiteList where
  urls : List String
deriving DecidableEq, Repr

/-- `RawConfig`: the whole deserialized file. -/
structure RawConfig where
  config : RawConfigOptions
  sites : SiteList
deriving DecidableEq, Repr

/-- `ConfigOptions`: validated options. -/
structure ConfigOptions where
  timeout_secs : Nat
  check_interval_secs : Nat
  webhook_url : Option String
  discord_id : Option Nat
deriving DecidableEq, Repr

/-- `Config`: the validated configuration. -/
structure Config where
  config : ConfigOptions
  sites : SiteList
deriving DecidableEq, Repr

/-- The process environment as `dotenvy::var(..).ok()` sees it: the two
variables the resolver reads.  `none` models an unset variable; a set but
empty variable is `some ""`. -/
structure Env where
  webhookUrl : Option String
  discordId : Option String
deriving DecidableEq, Repr

/-- `Config::validate_timeout`. -/
def Config.validate_timeout (timeout_secs : Nat) : Except Error Nat :=
  if timeout_secs = 0 then .error (.Config "timeout_secs must be > 0")
  else .ok timeout_secs

/-- `Config::validate_check_interval`: `(1..86400).contains`. -/
def Config.validate_check_interval (check_interval_secs : Nat) : Except Error Nat :=
  if ¬ (1 ≤ check_interval_secs ∧ check_interval_secs < 86400) then
    .error (.Config "check_interval_secs must be > 0 and < 86400")
  else .ok check_interval_secs

/-- The `/api/webhooks/` path prefix required of a Discord webhook URL. -/
def webhooksPfx : List Char := "/api/webhooks/".data

/-- The fixed webhook-shape error message of `validate_webhook_url`. -/
def webhookShapeMsg : String :=
  "Webhook URL must be a valid Discord webhook starting with https://discord.com/api/webhooks/"

/-- `Config::validate_webhook_url`: environment value (`WEBHOOK_URL`) or
file value; blank resolves to absent; otherwise parse as URL, require
scheme `https`, host `discord.com`, path starting `/api/webhooks/`, at
least two non-empty path segments after the prefix, the first parsing as a
`u64`; on success the chosen string is returned verbatim. -/
def Config.validate_webhook_url (env : Env) (raw_url : Option String) :
    Except Error (Option String) :=
  match env.webhookUrl.or raw_url with
  | none => .ok none
  | some url =>
    if (trimCh url.data).isEmpty then .ok none
    else
      match Url.parse url with
      | .error _ => .error (.Config "Invalid webhook URL format")
      | .ok parsed_url =>
        if ¬ (parsed_url.scheme = "https" ∧ parsed_url.host = "discord.com" ∧
              hasPfxCh webhooksPfx parsed_url.path.data) then
          .error (.Config webhookShapeMsg)
        else
          let path_parts : List (List Char) :=
            splitCh '/' ((stripPfxCh webhooksPfx parsed_url.path.data).getD [])
          if path_parts.length < 2 ∨ path_parts.headD [] = [] ∨
              (path_parts.drop 1).headD [] = [] then
            .error (.Config "Webhook URL must contain both webhook ID and token")
          else
            let webhook_id : List Char := path_parts.headD []
            match parseU64Ch webhook_id with
            | none =>
              .error (.Config ("Invalid webhook ID '" ++ ⟨webhook_id⟩ ++
                "': must be a valid Discord snowflake (numeric ID)"))
            | some _ => .ok (some url)

/-- `Config::validate_discord_id`: environment value (`DISCORD_ID`) parsed
as `u64` when that succeeds, else the file value. -/
def Config.validate_discord_id (env : Env) (raw_id : Option Nat) : Option Nat :=
  (env.discordId.bind (fun v => parseU64 v)).or raw_id

/-- `Config::validate_urls`: every monitored URL must parse; the first
failure aborts with the offending value in the message. -/
def Config.validate_urls : List String → Except Error Unit
  | [] => .ok ()
  | url :: rest =>
    match Url.parse url with
    | .error _ => .error (.Config ("Invalid URL: " ++ url))
    | .ok _ => Config.validate_urls rest

/-- `impl TryFrom<RawConfig> for Config`: validate every field, then build
the validated configuration.  The environment is an explicit argument. -/
def Config.try_from (env : Env) (raw : RawConfig) : Except Error Config := do
  let timeout_secs ← Config.validate_timeout raw.config.timeout_secs
  let check_interval_secs ← Config.validate_check_interval raw.config.check_interval_secs
  let webhook_url ← Config.validate_webhook_url env raw.config.webhook_url
  let discord_id := Config.validate_discord_id env raw.config.discord_id
  let _ ← Config.validate_urls raw.sites.urls
  .ok { config := { timeout_secs, check_interval_secs, webhook_url, discord_id },
        sites := raw.sites }

/-! ## Monitoring worker model (`src/worker.rs`)

The HTTP transport is external: the outcome of each GET and of each
webhook POST is passed in as an explicit argument (an oracle indexed by
the position of the URL in the cycle). -/

/-- `StatusCode::is_success` of reqwest: the 2xx range. -/
def statusIsSuccess (code : Nat) : Bool := 200 ≤ code && code < 300

/-- `is_url_up`: `build` is the outcome of `Client::builder().build()`
(propagated with `?`), `response` the outcome of the GET (`Ok` with a
status code, or a transport error).  A transport error becomes
`Ok false`; otherwise the result is whether the status is 2xx. -/
def is_url_up (build : Except Error Unit) (response : Except String Nat) :
    Except Error Bool :=
  match build with
  | .error e => .error e
  | .ok _ =>
    .ok (match response with
         | .ok status => statusIsSuccess status
         | .error _ => false)

/-- The mention tag of `send_discord_notification`:
`discord_id.map_or(String::new(), |id| format!("<@{id}> "))`. -/
def discordTag : Option Nat → String
  | none => ""
  | some id => "<@" ++ toString id ++ "> "

/-- The JSON `content` field built by `send_discord_notification`:
`format!("{tag}{message}")`. -/
def notifContent (discord_id : Option Nat) (message : String) : String :=
  discordTag discord_id ++ message

/-- One notification attempt: the webhook URL posted to and the `content`
text of the payload. -/
structure Attempt where
  webhook : String
  content : String
deriving DecidableEq, Repr

/-- `send_discord_notification`: builds the payload and posts it; the
POST outcome `ok` is external.  Returns the attempt made and the call's
result. -/
def send_discord_notification (webhook_url : String) (message : String)
    (discord_id : Option Nat) (ok : Bool) : Attempt × Except Error Unit :=
  ({ webhook := webhook_url, content := notifContent discord_id message },
   if ok then .ok () else .error (.HttpRequest "post failed"))

/-- Outcome of `is_url_up` for one URL of a cycle: `Ok(true)`,
`Ok(false)`, or a propagated error. -/
inductive CheckResult where
  | up
  | down
  | err
deriving DecidableEq, Repr

/-- `monitor_website_status` for one URL: on `up` nothing happens; on
`down`, if a webhook is configured, exactly one notification attempt is
made (its failure is returned to the caller); a check error is returned
with no attempt.  The first component lists the attempts made. -/
def monitor_website_status (url : String) (discord_id : Option Nat)
    (webhook_url : Option String) (check : CheckResult) (notifyOk : Bool) :
    List Attempt × Except Error Unit :=
  match check with
  | .err => ([], .error (.HttpRequest "client build failed"))
  | .up => ([], .ok ())
  | .down =>
    match webhook_url with
    | none => ([], .ok ())
    | some webhook =>
      let message := "Alert: " ++ url ++ " is DOWN!"
      let (att, res) := send_discord_notification webhook message discord_id notifyOk
      ([att], res)

/-- One `Checking` phase of `monitor_websites`: iterate the URLs in
order; a per-URL error is logged (`error!`) and the loop continues.
`check i` and `notifyOk i` are the external outcomes for the URL at
position `i`; the result lists every notification attempt of the cycle in
order. -/
def run_cycle (discord_id : Option Nat) (webhook_url : Option String)
    (check : Nat → CheckResult) (notifyOk : Nat → Bool) :
    List String → Nat → List Attempt
  | [], _ => []
  | url :: rest, i =>
    (monitor_website_status url discord_id webhook_url (check i) (notifyOk i)).1 ++
      run_cycle discord_id webhook_url check notifyOk rest (i + 1)

/-- Observable events of the `monitor_websites` loop. -/
inductive WEvent where
  /-- A cycle begins (`info!("Checking website status...")`). -/
  | cycleStart (n : Nat)
  /-- The URL is checked during cycle `n`. -/
  | checked (n : Nat) (url : String)
  /-- The inter-cycle sleep of cycle `n` ran to completion. -/
  | sleptFull (n : Nat)
  /-- Cancellation fired during the sleep of cycle `n`
      (`select!` took the `token.cancelled()` branch). -/
  | sleptInterrupted (n : Nat)
  /-- The loop exits (`break`): the worker is stopped. -/
  | stopped
deriving DecidableEq, Repr

/-- Trace of the `monitor_websites` loop from cycle `n`, with `fuel`
bounding the number of cycles observed (the loop itself is unbounded).
`cancelAtStart m` is whether `token.is_cancelled()` holds at the top of
cycle `m`; `cancelInSleep m` is whether the `select!` during the sleep of
cycle `m` resolves to the cancellation branch. -/
def monitor_trace (urls : List String) (cancelAtStart cancelInSleep : Nat → Bool) :
    Nat → Nat → List WEvent
  | 0, _ => []
  | fuel + 1, n =>
    if cancelAtStart n then [.stopped]
    else
      (WEvent.cycleStart n :: urls.map (WEvent.checked n)) ++
        (if cancelInSleep n then [WEvent.sleptInterrupted n, WEvent.stopped]
         else WEvent.sleptFull n ::
           monitor_trace urls cancelAtStart cancelInSleep fuel (n + 1))

/-! ## Distinguishing the four configuration-error classes -/

/-- The four configuration-error classes of the resolver. -/
inductive ConfigErrClass where
  | timeoutRange
  | intervalRange
  | webhookBad
  | urlBad
deriving DecidableEq, Repr

/-- Recover the error class from a resolution error.  The four classes
produce pairwise disjoint message sets (each validator's messages have a
fixed prefix no other validator's messages share), so the class is a
function of the error value. -/
def classifyConfigError (e : Error) : Option ConfigErrClass :=
  match e with
  | .HttpRequest _ => none
  | .Config msg =>
    if hasPfxCh "timeout_secs".data msg.data then some .timeoutRange
    else if hasPfxCh "check_interval_secs".data msg.data then some .intervalRange
    else if hasPfxCh "Invalid URL: ".data msg.data then some .urlBad
    else some .webhookBad

/-- The acceptance condition of C2 for a non-blank webhook candidate `s`
(stated from the claim, to be compared with `Config.validate_webhook_url`):
`s` parses as an absolute URL with scheme `https`, host `discord.com`,
path starting with `/api/webhooks/` followed by at least two segments of
which the first two are non-empty and the first parses as a `u64`. -/
def webhookAccepted (s : String) : Prop :=
  ∃ u, Url.parse s = .ok u ∧ u.scheme = "https" ∧ u.host = "discord.com" ∧
    hasPfxCh webhooksPfx u.path.data = true ∧
    2 ≤ (splitCh '/' ((stripPfxCh webhooksPfx u.path.data).getD [])).length ∧
    ¬ (splitCh '/' ((stripPfxCh webhooksPfx u.path.data).getD [])).headD [] = [] ∧
    ¬ ((splitCh '/' ((stripPfxCh webhooksPfx u.path.data).getD [])).drop 1).headD
        [] = [] ∧
    ∃ n, parseU64Ch
        ((splitCh '/' ((stripPfxCh webhooksPfx u.path.data).getD [])).headD []) =
      some n

/-! ## Helper lemmas about the character-list utilities -/

theorem hasPfxCh_append (p r : List Char) : hasPfxCh p (p ++ r) = true := by
  induction p with
  | nil => rfl
  | cons c cs ih => simp [hasPfxCh, ih]

theorem hasPfxCh_iff (p s : List Char) : hasPfxCh p s = true ↔ ∃ r, s = p ++ r := by
  constructor
  · intro h
    induction p generalizing s with
    | nil => exact ⟨s, rfl⟩
    | cons c cs ih =>
      cases s with
      | nil => simp [hasPfxCh] at h
      | cons x xs =>
        simp only [hasPfxCh, Bool.and_eq_true, decide_eq_true_eq] at h
        obtain ⟨r, hr⟩ := ih xs h.2
        exact ⟨r, by simp [h.1, hr]⟩
  · rintro ⟨r, rfl⟩
    exact hasPfxCh_append p r

theorem splitCh_no_sep (sep : Char) (l : List Char) (h : ∀ c ∈ l, ¬ c = sep) :
    splitCh sep l = [l] := by
  induction l with
  | nil => rfl
  | cons c cs ih =>
    have hc : ¬ c = sep := h c (List.mem_cons_self ..)
    simp only [splitCh, if_neg hc, ih fun x hx => h x (List.mem_cons_of_mem _ hx)]

theorem afterLastCh_no_sep (sep : Char) (l : List Char) (h : ∀ c ∈ l, ¬ c = sep) :
    afterLastCh sep l = l := by
  have key : ∀ (m : List Char) (acc : List Char), (∀ c ∈ m, ¬ c = sep) →
      m.foldl (fun acc c => if c = sep then [] else acc ++ [c]) acc = acc ++ m := by
    intro m
    induction m with
    | nil => intro acc _; simp
    | cons c cs ih =>
      intro acc hm
      have hc : ¬ c = sep := hm c (List.mem_cons_self ..)
      simp only [List.foldl_cons, if_neg hc]
      rw [ih (acc ++ [c]) fun x hx => hm x (List.mem_cons_of_mem _ hx)]
      simp
  simpa using key l [] h

/-- `validate_webhook_url` depends on the environment and file values only
through `env.or(raw_url)`. -/
theorem validate_webhook_url_or (e f : Option String) (d : Option String) :
    Config.validate_webhook_url ⟨e, d⟩ f = Config.validate_webhook_url ⟨e.or f, d⟩ none := by
  simp only [Config.validate_webhook_url, Option.or_none]

/-- A successful webhook validation of a non-blank candidate returns that
candidate verbatim. -/
theorem validate_webhook_url_ok_verbatim (s : String) (f : Option String)
    (r : Option String)
    (h : Config.validate_webhook_url ⟨some s, none⟩ f = .ok r)
    (hnb : (trimCh s.data).isEmpty = false) : r = some s := by
  simp only [Config.validate_webhook_url, Option.or, hnb, Bool.false_eq_true,
    if_false] at h
  cases hp : Url.parse s with
  | error e => rw [hp] at h; exact absurd h (by simp)
  | ok u =>
    rw [hp] at h
    split at h
    · exact absurd h (by simp)
    · split at h
      · exact absurd h (by simp)
      · split at h
        · exact absurd h (by simp)
        · split at h
          · exact absurd h (by simp)
          · exact (Except.ok.inj h).symm

/-- Unfolding of the `TryFrom` conversion into its validation steps. -/
theorem try_from_eq (env : Env) (raw : RawConfig) :
    Config.try_from env raw =
      match Config.validate_timeout raw.config.timeout_secs with
      | .error e => .error e
      | .ok t =>
        match Config.validate_check_interval raw.config.check_interval_secs with
        | .error e => .error e
        | .ok i =>
          match Config.validate_webhook_url env raw.config.webhook_url with
          | .error e => .error e
          | .ok w =>
            match Config.validate_urls raw.sites.urls with
            | .error e => .error e
            | .ok _ =>
              .ok ⟨⟨t, i, w, Config.validate_discord_id env raw.config.discord_id⟩,
                raw.sites⟩ := by
  simp only [Config.try_from, bind, Except.bind]
  cases Config.validate_timeout raw.config.timeout_secs with
  | error e => rfl
  | ok t =>
    cases Config.validate_check_interval raw.config.check_interval_secs with
    | error e => rfl
    | ok i =>
      cases Config.validate_webhook_url env raw.config.webhook_url with
      | error e => rfl
      | ok w =>
        cases Config.validate_urls raw.sites.urls with
        | error e => rfl
        | ok u => rfl

/-- The only error `validate_timeout` produces. -/
theorem validate_timeout_error_eq (t : Nat) (e : Error)
    (h : Config.validate_timeout t = .error e) :
    e = .Config "timeout_secs must be > 0" := by
  simp only [Config.validate_timeout] at h
  split at h
  · simpa using h.symm
  · exact absurd h (by simp)

/-- The only error `validate_check_interval` produces. -/
theorem validate_check_interval_error_eq (v : Nat) (e : Error)
    (h : Config.validate_check_interval v = .error e) :
    e = .Config "check_interval_secs must be > 0 and < 86400" := by
  simp only [Config.validate_check_interval] at h
  split at h
  · simpa using h.symm
  · exact absurd h (by simp)

/-- `validate_urls` succeeds exactly when every URL parses. -/
theorem validate_urls_ok_iff (urls : List String) :
    Config.validate_urls urls = .ok () ↔ ∀ u ∈ urls, ∃ p, Url.parse u = .ok p := by
  induction urls with
  | nil => simp [Config.validate_urls]
  | cons u rest ih =>
    simp only [Config.validate_urls]
    cases hp : Url.parse u with
    | error e =>
      simp only [List.mem_cons]
      constructor
      · intro h; exact absurd h (by simp)
      · intro h
        obtain ⟨p, hp'⟩ := h u (Or.inl rfl)
        rw [hp] at hp'; exact absurd hp' (by simp)
    | ok p =>
      constructor
      · intro h x hx
        rcases List.mem_cons.mp hx with rfl | hx
        · exact ⟨_, hp⟩
        · exact (ih.mp h) x hx
      · intro h
        exact ih.mpr fun x hx => h x (List.mem_cons_of_mem _ hx)

/-- Every `validate_urls` error names an offending URL that fails to
parse. -/
theorem validate_urls_error_shape (urls : List String) (e : Error)
    (h : Config.validate_urls urls = .error e) :
    ∃ u ∈ urls, (∀ p, ¬ Url.parse u = .ok p) ∧ e = .Config ("Invalid URL: " ++ u) := by
  induction urls with
  | nil => exact absurd h (by simp [Config.validate_urls])
  | cons u rest ih =>
    simp only [Config.validate_urls] at h
    cases hp : Url.parse u with
    | error pe =>
      rw [hp] at h
      refine ⟨u, List.mem_cons_self .., fun p hpp => ?_, by simpa using h.symm⟩
      rw [hp] at hpp; exact absurd hpp (by simp)
    | ok p =>
      rw [hp] at h
      obtain ⟨x, hx, hxp, hxe⟩ := ih h
      exact ⟨x, List.mem_cons_of_mem _ hx, hxp, hxe⟩

/-! ## Classifier lemmas -/

theorem hasPfxCh_head_ne (x y : Char) (a b : List Char) (h : ¬ x = y) :
    hasPfxCh (x :: a) (y :: b) = false := by
  simp [hasPfxCh, h]

theorem classify_invalid_url (u : String) :
    classifyConfigError (.Config ("Invalid URL: " ++ u)) = some .urlBad := by
  have hd : ("Invalid URL: " ++ u).data = 'I' :: ("nvalid URL: ".data ++ u.data) := by
    rw [String.data_append]; rfl
  have e1 : "timeout_secs".data = 't' :: "imeout_secs".data := rfl
  have e2 : "check_interval_secs".data = 'c' :: "heck_interval_secs".data := rfl
  have hurl : hasPfxCh "Invalid URL: ".data ('I' :: ("nvalid URL: ".data ++ u.data)) = true := by
    have e : ('I' : Char) :: ("nvalid URL: ".data ++ u.data) = "Invalid URL: ".data ++ u.data := rfl
    rw [e]
    exact hasPfxCh_append _ _
  simp only [classifyConfigError, hd, e1, e2,
    hasPfxCh_head_ne _ _ _ _ (by decide : ¬ 't' = 'I'),
    hasPfxCh_head_ne _ _ _ _ (by decide : ¬ 'c' = 'I'), hurl]
  simp

theorem classify_invalid_webhook_id (x : String) :
    classifyConfigError (.Config ("Invalid webhook ID '" ++ x ++
      "': must be a valid Discord snowflake (numeric ID)")) = some .webhookBad := by
  have hd : ("Invalid webhook ID '" ++ x ++
        "': must be a valid Discord snowflake (numeric ID)").data =
      'I' :: ("nvalid webhook ID '".data ++
        (x.data ++ "': must be a valid Discord snowflake (numeric ID)".data)) := by
    rw [String.data_append, String.data_append, List.append_assoc]; rfl
  have e1 : "timeout_secs".data = 't' :: "imeout_secs".data := rfl
  have e2 : "check_interval_secs".data = 'c' :: "heck_interval_secs".data := rfl
  have hnu : hasPfxCh "Invalid URL: ".data
      ('I' :: ("nvalid webhook ID '".data ++
        (x.data ++ "': must be a valid Discord snowflake (numeric ID)".data))) = false := by
    have e3 : "Invalid URL: ".data =
        'I' :: 'n' :: 'v' :: 'a' :: 'l' :: 'i' :: 'd' :: ' ' :: 'U' :: "RL: ".data := rfl
    have e4 : ("nvalid webhook ID '".data ++
          (x.data ++ "': must be a valid Discord snowflake (numeric ID)".data)) =
        'n' :: 'v' :: 'a' :: 'l' :: 'i' :: 'd' :: ' ' :: 'w' ::
          ("ebhook ID '".data ++
            (x.data ++ "': must be a valid Discord snowflake (numeric ID)".data)) := rfl
    rw [e3, e4]
    simp [hasPfxCh]
  simp only [classifyConfigError, hd, e1, e2,
    hasPfxCh_head_ne _ _ _ _ (by decide : ¬ 't' = 'I'),
    hasPfxCh_head_ne _ _ _ _ (by decide : ¬ 'c' = 'I'), hnu]
  simp

/-- Every error of `validate_webhook_url` is classified `webhookBad`. -/
theorem validate_webhook_url_error_class (env : Env) (f : Option String) (e : Error)
    (h : Config.validate_webhook_url env f = .error e) :
    classifyConfigError e = some .webhookBad := by
  simp only [Config.validate_webhook_url] at h
  split at h
  · exact absurd h (by simp)
  · split at h
    · exact absurd h (by simp)
    · split at h
      · rw [← Except.error.inj h]
        decide
      · split at h
        · rw [← Except.error.inj h]
          simp only [webhookShapeMsg]
          decide
        · split at h
          · rw [← Except.error.inj h]
            decide
          · split at h
            · rw [← Except.error.inj h]
              exact classify_invalid_webhook_id _
            · exact absurd h (by simp)

/-- **C1, counterexample.**  The claim says that whenever the environment
value is absent or blank (whitespace-only), resolution uses the
file-supplied value.  With `WEBHOOK_URL` set to the blank value `" "` and
the file supplying a valid webhook URL, resolution returns `none` (field
absent), not the file-supplied value. -/
theorem C1_counterexample :
    Config.validate_webhook_url ⟨some " ", none⟩
        (some "https://discord.com/api/webhooks/123/token") = .ok none ∧
    Config.validate_webhook_url ⟨some " ", none⟩
        (some "https://discord.com/api/webhooks/123/token") ≠
      .ok (some "https://discord.com/api/webhooks/123/token") := by
  have h1 : Config.validate_webhook_url ⟨some " ", none⟩
      (some "https://discord.com/api/webhooks/123/token") = .ok none := rfl
  refine ⟨h1, ?_⟩
  rw [h1]
  simp

/-- **C1, amended.**  For `webhook_url`: a present non-blank environment
value is the one resolved, ignoring the file value (any success returns
it verbatim); an absent environment value makes the file value the one
resolved; a blank environment value resolves the field to absent
regardless of the file value.  For `discord_id`: a present environment
value that parses as a `u64` wins; otherwise (absent or unparseable,
including blank) the file value is used. -/
theorem C1_override_precedence :
    (∀ (s : String) (f : Option String), (trimCh s.data).isEmpty = false →
        Config.validate_webhook_url ⟨some s, none⟩ f =
          Config.validate_webhook_url ⟨some s, none⟩ none ∧
        ∀ r, Config.validate_webhook_url ⟨some s, none⟩ f = .ok r → r = some s) ∧
    (∀ f : String, Config.validate_webhook_url ⟨none, none⟩ (some f) =
        Config.validate_webhook_url ⟨some f, none⟩ none) ∧
    (∀ (s : String) (f : Option String), (trimCh s.data).isEmpty = true →
        Config.validate_webhook_url ⟨some s, none⟩ f = .ok none) ∧
    (∀ (s : String) (n : Nat) (f : Option Nat), parseU64 s = some n →
        Config.validate_discord_id ⟨none, some s⟩ f = some n) ∧
    (∀ f : Option Nat, Config.validate_discord_id ⟨none, none⟩ f = f) ∧
    (∀ (s : String) (f : Option Nat), parseU64 s = none →
        Config.validate_discord_id ⟨none, some s⟩ f = f) := by
  refine ⟨fun s f hnb => ⟨?_, fun r hr => validate_webhook_url_ok_verbatim s f r hr hnb⟩,
    fun f => ?_, fun s f hb => ?_, fun s n f h => ?_, fun f => ?_, fun s f h => ?_⟩
  · rw [validate_webhook_url_or, validate_webhook_url_or]; rfl
  · rw [validate_webhook_url_or]; rfl
  · rw [validate_webhook_url_or]
    show Config.validate_webhook_url ⟨some s, none⟩ none = .ok none
    simp [Config.validate_webhook_url, Option.or, hb]
  · simp [Config.validate_discord_id, Option.bind, parseU64] at h ⊢
    simp [h, Option.or]
  · simp [Config.validate_discord_id, Option.or]
  · simp [Config.validate_discord_id, Option.bind, parseU64] at h ⊢
    simp [h, Option.or]

/-- Witness for `C1_override_precedence` at concrete inputs. -/
theorem C1_witness :
    (trimCh "https://x".data).isEmpty = false ∧
    Config.validate_webhook_url ⟨some "https://x", none⟩ (some "other") =
      Config.validate_webhook_url ⟨some "https://x", none⟩ none ∧
    parseU64 "42" = some 42 ∧
    Config.validate_discord_id ⟨none, some "42"⟩ (some 7) = some 42 ∧
    parseU64 " " = none ∧
    Config.validate_discord_id ⟨none, some " "⟩ (some 7) = some 7 :=
  ⟨by decide, (C1_override_precedence.1 "https://x" (some "other") (by decide)).1,
   by decide, C1_override_precedence.2.2.2.1 "42" 42 (some 7) (by decide),
   by decide, C1_override_precedence.2.2.2.2.2 " " (some 7) (by decide)⟩

/-- **C3.**  Any `check_interval_secs` outside `[1, 86399]` makes the
whole resolution fail with a configuration error; every value inside the
range (both boundaries included) passes interval validation. -/
theorem C3_interval_validation :
    (∀ v : Nat, ¬ (1 ≤ v ∧ v ≤ 86399) →
      ∀ (env : Env) (raw : RawConfig), raw.config.check_interval_secs = v →
        ∃ msg, Config.try_from env raw = .error (.Config msg)) ∧
    (∀ v : Nat, 1 ≤ v → v ≤ 86399 → Config.validate_check_interval v = .ok v) := by
  constructor
  · intro v hv env raw hraw
    rw [try_from_eq]
    cases ht : Config.validate_timeout raw.config.timeout_secs with
    | error e =>
      refine ⟨"timeout_secs must be > 0", ?_⟩
      simp only [ht, validate_timeout_error_eq _ _ ht]
    | ok t =>
      have hno : ¬ (1 ≤ v ∧ v < 86400) := by omega
      have hi : Config.validate_check_interval v =
          .error (.Config "check_interval_secs must be > 0 and < 86400") := by
        simp only [Config.validate_check_interval]
        rw [if_pos hno]
      refine ⟨"check_interval_secs must be > 0 and < 86400", ?_⟩
      simp only [ht, hraw, hi]
  · intro v h1 h2
    simp only [Config.validate_check_interval]
    rw [if_neg (not_not_intro ⟨h1, by omega⟩)]

/-- Witness for `C3_interval_validation` at concrete inputs. -/
theorem C3_witness :
    (¬ (1 ≤ 86400 ∧ 86400 ≤ 86399)) ∧
    (∃ msg, Config.try_from ⟨none, none⟩ ⟨⟨30, 86400, none, none⟩, ⟨[]⟩⟩ =
      .error (.Config msg)) ∧
    Config.validate_check_interval 1 = .ok 1 ∧
    Config.validate_check_interval 86399 = .ok 86399 :=
  ⟨by decide,
   C3_interval_validation.1 86400 (by decide) ⟨none, none⟩ ⟨⟨30, 86400, none, none⟩, ⟨[]⟩⟩ rfl,
   C3_interval_validation.2 1 (by decide) (by decide),
   C3_interval_validation.2 86399 (by decide) (by decide)⟩

/-- **C6.**  With a successfully built client, the availability check
returns `Ok` of a boolean that is `true` exactly when the response status
is in the 2xx range, and any transport failure yields `Ok false` rather
than an error. -/
theorem C6_is_url_up :
    (∀ status : Nat,
        is_url_up (.ok ()) (.ok status) = .ok (statusIsSuccess status) ∧
        (is_url_up (.ok ()) (.ok status) = .ok true ↔ 200 ≤ status ∧ status < 300)) ∧
    (∀ err : String, is_url_up (.ok ()) (.error err) = .ok false) := by
  refine ⟨fun status => ⟨rfl, ?_⟩, fun err => rfl⟩
  simp [is_url_up, statusIsSuccess]

/-- **C7, counterexample.**  The claim says a DOWN URL always triggers
exactly one notification attempt; with no webhook configured, a DOWN URL
triggers zero attempts. -/
theorem C7_counterexample :
    run_cycle none none (fun _ => CheckResult.down) (fun _ => true)
      ["https://a.example"] 0 = [] ∧
    (run_cycle none none (fun _ => CheckResult.down) (fun _ => true)
      ["https://a.example"] 0).length = 0 :=
  ⟨rfl, rfl⟩

/-- **C7, amended.**  When a webhook URL is configured, a cycle performs
exactly one notification attempt per DOWN URL, in order, with the URL
contained in the attempt text; UP URLs produce no attempts; the attempts
made are independent of notifier failures (a failed notification never
aborts the cycle or affects subsequent URLs); with no webhook configured
no attempts are made. -/
theorem C7_cycle_notifications :
    (∀ (d : Option Nat) (w : String) (check : Nat → CheckResult)
        (nOk : Nat → Bool) (urls : List String) (i : Nat),
        run_cycle d (some w) check nOk urls i =
          (List.enumFrom i urls).filterMap fun p =>
            if check p.1 = CheckResult.down then
              some ⟨w, notifContent d ("Alert: " ++ p.2 ++ " is DOWN!")⟩
            else none) ∧
    (∀ d w check nOk nOk' urls i,
        run_cycle d w check nOk urls i = run_cycle d w check nOk' urls i) ∧
    (∀ (d : Option Nat) (url : String), ∃ pre post,
        notifContent d ("Alert: " ++ url ++ " is DOWN!") = pre ++ url ++ post) ∧
    (∀ d check nOk urls i, run_cycle d none check nOk urls i = []) := by
  refine ⟨fun d w check nOk urls => ?_, fun d w check nOk nOk' urls => ?_,
    fun d url => ⟨discordTag d ++ "Alert: ", " is DOWN!", ?_⟩,
    fun d check nOk urls => ?_⟩
  · induction urls with
    | nil => intro i; rfl
    | cons u rest ih =>
      intro i
      simp only [run_cycle, monitor_website_status, List.enumFrom, List.filterMap_cons]
      cases hc : check i with
      | up => simp [ih]
      | down => simp [send_discord_notification, ih]
      | err => simp [ih]
  · induction urls with
    | nil => intro i; rfl
    | cons u rest ih =>
      intro i
      simp only [run_cycle]
      rw [ih]
      cases check i <;> cases w <;> rfl
  · simp [notifContent, String.append_assoc]
  · induction urls with
    | nil => intro i; rfl
    | cons u rest ih =>
      intro i
      simp only [run_cycle]
      rw [ih]
      cases check i <;> rfl

/-- **C8.**  With a Discord id configured the notification text is the
mention token `<@id> ` followed by the alert text; with none it is the
alert text unchanged; and the attempts of a cycle are the same as without
an id, except for the prefixed text (so whether a notification is
attempted never depends on the id). -/
theorem C8_mention_prefix :
    (∀ (id : Nat) (msg : String),
        notifContent (some id) msg = "<@" ++ toString id ++ "> " ++ msg) ∧
    (∀ msg : String, notifContent none msg = msg) ∧
    (∀ (d : Option Nat) (w : Option String) (check : Nat → CheckResult)
        (nOk : Nat → Bool) (urls : List String) (i : Nat),
        run_cycle d w check nOk urls i =
          (run_cycle none w check nOk urls i).map
            (fun a => ⟨a.webhook, discordTag d ++ a.content⟩)) := by
  have hnone : ∀ msg : String, notifContent none msg = msg := by
    intro msg
    cases msg with
    | mk data => rfl
  refine ⟨fun id msg => rfl, hnone, fun d w check nOk urls => ?_⟩
  induction urls with
  | nil => intro i; rfl
  | cons u rest ih =>
    intro i
    simp only [run_cycle, monitor_website_status]
    cases hc : check i with
    | up => simpa using ih (i + 1)
    | down =>
      cases w with
      | none => simpa using ih (i + 1)
      | some wh =>
        simp only [send_discord_notification, List.singleton_append, List.map_cons]
        rw [ih (i + 1)]
        have h2 : discordTag none ++ ("Alert: " ++ u ++ " is DOWN!") =
            ("Alert: " ++ u ++ " is DOWN!") := hnone _
        simp [notifContent, h2]
    | err => simpa using ih (i + 1)

/-- **C9.**  If cancellation is already requested at the top of a cycle,
the loop stops with no checks of that cycle; if cancellation fires during
the inter-cycle sleep, the loop stops without a completed sleep and
without starting the next cycle; and the loop stops only when some
cancellation fired. -/
theorem C9_cancellation :
    (∀ (urls : List String) (ca cs : Nat → Bool) (fuel n : Nat), ca n = true →
        monitor_trace urls ca cs (fuel + 1) n = [WEvent.stopped]) ∧
    (∀ urls ca cs fuel n, ca n = false → cs n = true →
        monitor_trace urls ca cs (fuel + 1) n =
          (WEvent.cycleStart n :: urls.map (WEvent.checked n)) ++
            [WEvent.sleptInterrupted n, WEvent.stopped]) ∧
    (∀ urls ca cs fuel n, WEvent.stopped ∈ monitor_trace urls ca cs fuel n →
        ∃ m, n ≤ m ∧ (ca m = true ∨ cs m = true)) := by
  refine ⟨fun urls ca cs fuel n h => by simp [monitor_trace, h],
    fun urls ca cs fuel n h1 h2 => by simp [monitor_trace, h1, h2], ?_⟩
  intro urls ca cs fuel
  induction fuel with
  | zero => intro n h; simp [monitor_trace] at h
  | succ fuel ih =>
    intro n h
    by_cases hca : ca n = true
    · exact ⟨n, Nat.le_refl n, Or.inl hca⟩
    · by_cases hcs : cs n = true
      · exact ⟨n, Nat.le_refl n, Or.inr hcs⟩
      · rw [monitor_trace, if_neg hca, if_neg hcs] at h
        simp only [List.mem_append, List.mem_cons, List.mem_map] at h
        rcases h with (h | h) | h | h
        · exact absurd h (by simp)
        · obtain ⟨x, _, hx⟩ := h
          exact absurd hx (by simp)
        · exact absurd h (by simp)
        · obtain ⟨m, hm, hc⟩ := ih (n + 1) h
          exact ⟨m, by omega, hc⟩

/-- Witness for `C9_cancellation` at concrete inputs. -/
theorem C9_witness :
    ((fun _ : Nat => true) 0 = true) ∧
    monitor_trace ["https://a.example"] (fun _ => true) (fun _ => false) 1 0 =
      [WEvent.stopped] ∧
    ((fun _ : Nat => false) 0 = false) ∧
    monitor_trace ["https://a.example"] (fun _ => false) (fun _ => true) 1 0 =
      (WEvent.cycleStart 0 :: [WEvent.checked 0 "https://a.example"]) ++
        [WEvent.sleptInterrupted 0, WEvent.stopped] ∧
    WEvent.stopped ∈ monitor_trace ["https://a.example"] (fun _ => true) (fun _ => false) 1 0 ∧
    ∃ m, 0 ≤ m ∧ ((fun _ : Nat => true) m = true ∨ (fun _ : Nat => false) m = true) :=
  ⟨rfl, C9_cancellation.1 ["https://a.example"] (fun _ => true) (fun _ => false) 0 0 rfl,
   rfl, C9_cancellation.2.1 ["https://a.example"] (fun _ => false) (fun _ => true) 0 0 rfl rfl,
   by decide,
   C9_cancellation.2.2 ["https://a.example"] (fun _ => true) (fun _ => false) 1 0 (by decide)⟩

/-- **C5.**  Site-list validation succeeds exactly when every monitored
URL parses; the first invalid entry aborts with an error naming it; and a
successful resolution keeps the raw URL sequence unchanged (order and
duplicates preserved). -/
theorem C5_site_list :
    (∀ urls : List String, Config.validate_urls urls = .ok () ↔
        ∀ u ∈ urls, ∃ p, Url.parse u = .ok p) ∧
    (∀ (pre : List String) (u : String) (post : List String),
        (∀ x ∈ pre, ∃ p, Url.parse x = .ok p) → (∀ p, ¬ Url.parse u = .ok p) →
        Config.validate_urls (pre ++ u :: post) =
          .error (.Config ("Invalid URL: " ++ u))) ∧
    (∀ (env : Env) (raw : RawConfig) (c : Config),
        Config.try_from env raw = .ok c → c.sites.urls = raw.sites.urls) := by
  refine ⟨validate_urls_ok_iff, fun pre u post hpre hu => ?_, fun env raw c hc => ?_⟩
  · induction pre with
    | nil =>
      simp only [List.nil_append, Config.validate_urls]
      cases hp : Url.parse u with
      | error e => rfl
      | ok p => exact absurd hp (hu p)
    | cons x xs ih =>
      simp only [List.cons_append, Config.validate_urls]
      obtain ⟨p, hp⟩ := hpre x (List.mem_cons_self ..)
      rw [hp]
      exact ih fun y hy => hpre y (List.mem_cons_of_mem _ hy)
  · rw [try_from_eq] at hc
    cases ht : Config.validate_timeout raw.config.timeout_secs with
    | error e => rw [ht] at hc; exact absurd hc (by simp)
    | ok t =>
      rw [ht] at hc
      cases hi : Config.validate_check_interval raw.config.check_interval_secs with
      | error e => rw [hi] at hc; exact absurd hc (by simp)
      | ok i =>
        rw [hi] at hc
        cases hw : Config.validate_webhook_url env raw.config.webhook_url with
        | error e => rw [hw] at hc; exact absurd hc (by simp)
        | ok w =>
          rw [hw] at hc
          cases hus : Config.validate_urls raw.sites.urls with
          | error e => rw [hus] at hc; exact absurd hc (by simp)
          | ok un =>
            rw [hus] at hc
            rw [← Except.ok.inj hc]

/-- Witness for `C5_site_list` at concrete inputs. -/
theorem C5_witness :
    (∀ x ∈ ["https://ok.example"], ∃ p, Url.parse x = .ok p) ∧
    (∀ p, ¬ Url.parse "not-a-url" = .ok p) ∧
    Config.validate_urls (["https://ok.example"] ++ "not-a-url" :: ["https://b.example"]) =
      .error (.Config ("Invalid URL: " ++ "not-a-url")) ∧
    Config.try_from ⟨none, none⟩ ⟨⟨30, 300, none, none⟩, ⟨["https://a.example", "https://a.example"]⟩⟩ =
      .ok ⟨⟨30, 300, none, none⟩, ⟨["https://a.example", "https://a.example"]⟩⟩ ∧
    (⟨⟨30, 300, none, none⟩, ⟨["https://a.example", "https://a.example"]⟩⟩ : Config).sites.urls =
      (⟨⟨30, 300, none, none⟩, ⟨["https://a.example", "https://a.example"]⟩⟩ : RawConfig).sites.urls := by
  have hpre : ∀ x ∈ ["https://ok.example"], ∃ p, Url.parse x = .ok p := by
    intro x hx
    rw [List.mem_singleton] at hx
    subst hx
    exact ⟨{ scheme := "https", host := "ok.example", path := "/" }, rfl⟩
  have hu : ∀ p, ¬ Url.parse "not-a-url" = .ok p := by
    intro p h
    rw [show Url.parse "not-a-url" = .error .relativeUrlWithoutBase from rfl] at h
    exact Except.noConfusion h
  have hok : Config.try_from ⟨none, none⟩
      ⟨⟨30, 300, none, none⟩, ⟨["https://a.example", "https://a.example"]⟩⟩ =
      .ok ⟨⟨30, 300, none, none⟩, ⟨["https://a.example", "https://a.example"]⟩⟩ := rfl
  exact ⟨hpre, hu, C5_site_list.2.1 ["https://ok.example"] "not-a-url" ["https://b.example"] hpre hu,
    hok, C5_site_list.2.2 ⟨none, none⟩ _ _ hok⟩

/-- **C4.**  Resolution is all-or-nothing: it returns a validated config
exactly when all four validation steps succeed, any failing step turns
the whole resolution into an error, and the error value determines which
of the four error classes occurred (`classifyConfigError` recovers the
class, and the class pins down the failing validator). -/
theorem C4_all_or_nothing :
    ∀ (env : Env) (raw : RawConfig),
      ((∃ c, Config.try_from env raw = .ok c) ↔
        ((∃ t, Config.validate_timeout raw.config.timeout_secs = .ok t) ∧
         (∃ i, Config.validate_check_interval raw.config.check_interval_secs = .ok i) ∧
         (∃ w, Config.validate_webhook_url env raw.config.webhook_url = .ok w) ∧
         Config.validate_urls raw.sites.urls = .ok ())) ∧
      (∀ e, Config.try_from env raw = .error e →
        ∃ cl, classifyConfigError e = some cl ∧
          (cl = .timeoutRange →
            Config.validate_timeout raw.config.timeout_secs = .error e) ∧
          (cl = .intervalRange →
            Config.validate_check_interval raw.config.check_interval_secs = .error e) ∧
          (cl = .webhookBad →
            Config.validate_webhook_url env raw.config.webhook_url = .error e) ∧
          (cl = .urlBad → Config.validate_urls raw.sites.urls = .error e)) := by
  intro env raw
  rw [try_from_eq]
  cases ht : Config.validate_timeout raw.config.timeout_secs with
  | error e0 =>
    refine ⟨⟨fun ⟨c, hc⟩ => absurd hc (by simp), fun ⟨⟨t, htk⟩, _⟩ => absurd htk (by simp)⟩,
      fun e he => ?_⟩
    have he0 : e = e0 := (Except.error.inj he).symm
    subst he0
    have hmsg := validate_timeout_error_eq _ _ ht
    subst hmsg
    exact ⟨.timeoutRange, by decide, fun _ => rfl, fun h => absurd h (by decide),
      fun h => absurd h (by decide), fun h => absurd h (by decide)⟩
  | ok t =>
    cases hi : Config.validate_check_interval raw.config.check_interval_secs with
    | error e0 =>
      refine ⟨⟨fun ⟨c, hc⟩ => absurd hc (by simp),
        fun ⟨_, ⟨i, hik⟩, _⟩ => absurd hik (by simp)⟩, fun e he => ?_⟩
      have he0 : e = e0 := (Except.error.inj he).symm
      subst he0
      have hmsg := validate_check_interval_error_eq _ _ hi
      subst hmsg
      exact ⟨.intervalRange, by decide, fun h => absurd h (by decide), fun _ => rfl,
        fun h => absurd h (by decide), fun h => absurd h (by decide)⟩
    | ok i =>
      cases hw : Config.validate_webhook_url env raw.config.webhook_url with
      | error e0 =>
        refine ⟨⟨fun ⟨c, hc⟩ => absurd hc (by simp),
          fun ⟨_, _, ⟨w, hwk⟩, _⟩ => absurd hwk (by simp)⟩, fun e he => ?_⟩
        have he0 : e = e0 := (Except.error.inj he).symm
        subst he0
        exact ⟨.webhookBad, validate_webhook_url_error_class _ _ _ hw,
          fun h => absurd h (by decide), fun h => absurd h (by decide), fun _ => rfl,
          fun h => absurd h (by decide)⟩
      | ok w =>
        cases hus : Config.validate_urls raw.sites.urls with
        | error e0 =>
          refine ⟨⟨fun ⟨c, hc⟩ => absurd hc (by simp),
            fun ⟨_, _, _, husk⟩ => absurd husk (by simp)⟩, fun e he => ?_⟩
          have he0 : e = e0 := (Except.error.inj he).symm
          subst he0
          obtain ⟨u, _, _, hue⟩ := validate_urls_error_shape _ _ hus
          subst hue
          exact ⟨.urlBad, classify_invalid_url u, fun h => absurd h (by decide),
            fun h => absurd h (by decide), fun h => absurd h (by decide), fun _ => rfl⟩
        | ok un =>
          refine ⟨⟨fun _ => ⟨⟨t, rfl⟩, ⟨i, rfl⟩, ⟨w, rfl⟩, ?_⟩, fun _ => ⟨_, rfl⟩⟩,
            fun e he => absurd he (by simp)⟩
          cases un
          rfl

/-- Witness for `C4_all_or_nothing` at concrete inputs. -/
theorem C4_witness :
    (∃ c, Config.try_from ⟨none, none⟩ ⟨⟨30, 300, none, none⟩, ⟨[]⟩⟩ = .ok c) ∧
    Config.try_from ⟨none, none⟩ ⟨⟨0, 300, none, none⟩, ⟨[]⟩⟩ =
      .error (.Config "timeout_secs must be > 0") ∧
    (∃ cl, classifyConfigError (.Config "timeout_secs must be > 0") = some cl ∧
      (cl = .timeoutRange →
        Config.validate_timeout
          (⟨⟨0, 300, none, none⟩, ⟨[]⟩⟩ : RawConfig).config.timeout_secs =
          .error (.Config "timeout_secs must be > 0")) ∧
      (cl = .intervalRange →
        Config.validate_check_interval
          (⟨⟨0, 300, none, none⟩, ⟨[]⟩⟩ : RawConfig).config.check_interval_secs =
          .error (.Config "timeout_secs must be > 0")) ∧
      (cl = .webhookBad →
        Config.validate_webhook_url ⟨none, none⟩
          (⟨⟨0, 300, none, none⟩, ⟨[]⟩⟩ : RawConfig).config.webhook_url =
          .error (.Config "timeout_secs must be > 0")) ∧
      (cl = .urlBad →
        Config.validate_urls (⟨⟨0, 300, none, none⟩, ⟨[]⟩⟩ : RawConfig).sites.urls =
          .error (.Config "timeout_secs must be > 0"))) :=
  ⟨(C4_all_or_nothing ⟨none, none⟩ ⟨⟨30, 300, none, none⟩, ⟨[]⟩⟩).1.mpr
      ⟨⟨30, rfl⟩, ⟨300, rfl⟩, ⟨none, rfl⟩, rfl⟩,
   rfl,
   (C4_all_or_nothing ⟨none, none⟩ ⟨⟨0, 300, none, none⟩, ⟨[]⟩⟩).2
      (.Config "timeout_secs must be > 0") rfl⟩

/-- **C2.**  For a present non-blank webhook value, validation succeeds
(storing the value verbatim) exactly under the acceptance condition of
the claim — parses as an absolute URL, scheme `https`, host
`discord.com`, path prefix `/api/webhooks/` with two non-empty segments
whose first parses as a `u64` (Rust's `parse::<u64>`, the code's reading
of "non-negative integer") — and the four concrete examples of the claim
behave as stated. -/
theorem C2_webhook_validation :
    (∀ s : String, (trimCh s.data).isEmpty = false →
        (Config.validate_webhook_url ⟨none, none⟩ (some s) = .ok (some s) ↔
          webhookAccepted s)) ∧
    (∀ (s : String) (r : Option String), (trimCh s.data).isEmpty = false →
        Config.validate_webhook_url ⟨none, none⟩ (some s) = .ok r → r = some s) ∧
    Config.validate_webhook_url ⟨none, none⟩
        (some "https://discord.com/api/webhooks/123/token") =
      .ok (some "https://discord.com/api/webhooks/123/token") ∧
    Config.validate_webhook_url ⟨none, none⟩
        (some "https://evil.com/api/webhooks/123/token") =
      .error (.Config webhookShapeMsg) ∧
    Config.validate_webhook_url ⟨none, none⟩ (some "not-a-url") =
      .error (.Config "Invalid webhook URL format") ∧
    Config.validate_webhook_url ⟨none, none⟩
        (some "https://discord.com/api/webhooks/abc/token") =
      .error (.Config ("Invalid webhook ID '" ++ "abc" ++
        "': must be a valid Discord snowflake (numeric ID)")) := by
  refine ⟨fun s hnb => ?_,
    fun s r hnb hr => validate_webhook_url_ok_verbatim s none r hr hnb,
    rfl, rfl, rfl, rfl⟩
  simp only [Config.validate_webhook_url, Option.or, hnb, Bool.false_eq_true, if_false]
  cases hp : Url.parse s with
  | error e => simp [webhookAccepted, hp]
  | ok u =>
    simp only [webhookAccepted, hp, Except.ok.injEq, exists_eq_left']
    by_cases hsh : u.scheme = "https" ∧ u.host = "discord.com" ∧
        hasPfxCh webhooksPfx u.path.data = true
    · rw [if_neg (not_not_intro hsh)]
      by_cases hlen :
          (splitCh '/' ((stripPfxCh webhooksPfx u.path.data).getD [])).length < 2 ∨
          (splitCh '/' ((stripPfxCh webhooksPfx u.path.data).getD [])).headD [] = [] ∨
          ((splitCh '/' ((stripPfxCh webhooksPfx u.path.data).getD [])).drop
            1).headD [] = []
      · rw [if_pos hlen]
        constructor
        · intro h; exact absurd h (by simp)
        · rintro ⟨_, _, _, h2, hh, hd, -⟩
          rcases hlen with hlen | hlen | hlen
          · exact absurd hlen (by omega)
          · exact absurd hlen hh
          · exact absurd hlen hd
      · rw [if_neg hlen]
        push_neg at hlen
        obtain ⟨h2, hh, hd⟩ := hlen
        cases hpu : parseU64Ch
            ((splitCh '/' ((stripPfxCh webhooksPfx u.path.data).getD [])).headD
              []) with
        | none =>
          constructor
          · intro h; exact absurd h (by simp)
          · rintro ⟨_, _, _, _, _, _, n, hn⟩
            exact absurd hn (by simp)
        | some n =>
          constructor
          · intro _
            exact ⟨hsh.1, hsh.2.1, hsh.2.2, by omega, hh, hd, n, rfl⟩
          · intro _
            rfl
    · rw [if_pos hsh]
      constructor
      · intro h; exact absurd h (by simp)
      · rintro ⟨h1, h2, h3, -⟩
        exact absurd ⟨h1, h2, h3⟩ hsh

/-- Witness for `C2_webhook_validation` at a concrete input. -/
theorem C2_witness :
    (trimCh "https://discord.com/api/webhooks/123/token".data).isEmpty = false ∧
    (Config.validate_webhook_url ⟨none, none⟩
        (some "https://discord.com/api/webhooks/123/token") =
        .ok (some "https://discord.com/api/webhooks/123/token") ↔
      webhookAccepted "https://discord.com/api/webhooks/123/token") :=
  ⟨by decide, C2_webhook_validation.1 "https://discord.com/api/webhooks/123/token" (by decide)⟩

end Downdetector
